import Mathlib

/-!
Verification of the duplicate-detection advisory engine of the
jetvision-agent repository, together with its two test-harness scripts
(multi-repo-hooks-test.py and scripts/test-n8n-webhook.py).

The core engine (Pattern Catalog, Symbol Extractor, Tree Search Adapter,
the three Finders, the Advisory Composer and the gating layer) is
described in the specification but its source is not present under src/;
those components are modelled from the spec, as indicated in the doc
comments. The two Python scripts under src/ are embedded directly.

Strings of the engine model are shallowly embedded as lists of
characters (abbrev Str), so that all operations are structurally
recursive and executable.
-/

set_option maxHeartbeats 1000000

abbrev Str := List Char

/-- Convert a Lean string literal to the character-list representation. -/
def sToL (s : String) : Str := s.data

/-- Modelled from the spec: an identifier character, as captured by the
name-extraction regular expressions of the Pattern Catalog
(word characters of common source dialects). -/
def isIdentChar (c : Char) : Bool := c.isAlphanum || c = '_' || c = '$'

/-- Whitespace characters of a source line. -/
def isWS (c : Char) : Bool := c = ' ' || c = '\t'

/-- Whether the first argument occurs at the start of the second. -/
def leadsWith : Str → Str → Bool
  | [], _ => true
  | _ :: _, [] => false
  | p :: ps, c :: cs => p = c && leadsWith ps cs

/-- Whether the first argument occurs as a contiguous segment of the second. -/
def containsSeg (pat : Str) : Str → Bool
  | [] => leadsWith pat []
  | c :: cs => leadsWith pat (c :: cs) || containsSeg pat cs

/-- Whether the first argument occurs at the end of the second. -/
def endsSeg (pat s : Str) : Bool := leadsWith pat.reverse s.reverse

/-- The maximal identifier at the start of a line fragment. -/
def takeIdent (l : Str) : Str := l.takeWhile isIdentChar

theorem leadsWith_append (p r : Str) : leadsWith p (p ++ r) = true := by
  induction p with
  | nil => rfl
  | cons c cs ih => simp [leadsWith, ih]

theorem containsSeg_of_leads {pat s : Str} (h : leadsWith pat s = true) :
    containsSeg pat s = true := by
  cases s with
  | nil => simpa [containsSeg] using h
  | cons c cs => simp [containsSeg, h]

theorem containsSeg_append_right {pat : Str} (x : Str) {y : Str}
    (h : containsSeg pat y = true) : containsSeg pat (x ++ y) = true := by
  induction x with
  | nil => simpa using h
  | cons c cs ih =>
      simp only [List.cons_append, containsSeg, Bool.or_eq_true]
      exact Or.inr ih

theorem containsSeg_self_append (pat r : Str) :
    containsSeg pat (pat ++ r) = true :=
  containsSeg_of_leads (leadsWith_append pat r)

theorem takeIdent_append {S : Str} {c : Char} (r : Str)
    (hS : ∀ x ∈ S, isIdentChar x = true) (hc : isIdentChar c = false) :
    takeIdent (S ++ c :: r) = S := by
  induction S with
  | nil => simp [takeIdent, List.takeWhile, hc]
  | cons a as ih =>
      have ha : isIdentChar a = true := hS a (by simp)
      have ih2 := ih (fun x hx => hS x (by simp [hx]))
      simp only [takeIdent, List.cons_append, List.takeWhile, ha] at *
      simp [ih2]

/-- Append all results of a list-valued function (used in place of the
standard monadic bind so that membership lemmas are self-contained). -/
def collectAll (f : α → List β) : List α → List β
  | [] => []
  | x :: xs => f x ++ collectAll f xs

theorem mem_collectAll {f : α → List β} {b : β} {xs : List α}
    (x : α) (hx : x ∈ xs) (hb : b ∈ f x) : b ∈ collectAll f xs := by
  induction xs with
  | nil => cases hx
  | cons y ys ih =>
      rcases List.mem_cons.mp hx with h | h
      · subst h; exact List.mem_append.mpr (Or.inl hb)
      · exact List.mem_append.mpr (Or.inr (ih h))

theorem collectAll_eq_nil {f : α → List β} {xs : List α}
    (h : ∀ x ∈ xs, f x = []) : collectAll f xs = [] := by
  induction xs with
  | nil => rfl
  | cons y ys ih =>
      simp only [collectAll, h y (by simp)]
      exact ih (fun x hx => h x (by simp [hx]))

/-- Modelled from the spec: every place where the given catalog pattern
(a literal declaration-keyword head) occurs in the line, capture the
identifier that follows it. This realizes "apply every catalog pattern
independently, collect all capture-group values". -/
def capturesAt (p : Str) : Str → List Str
  | [] => []
  | c :: cs =>
      (if leadsWith p (c :: cs) then
        (let id := takeIdent (List.drop p.length (c :: cs));
         if id = [] then [] else [id])
       else []) ++ capturesAt p cs

/-- Modelled from the spec: the Pattern Catalog — an ordered sequence of
name-extraction patterns recognizing function, class, interface,
type-alias, const/let-binding, export and Python-style declarations.
Pure data; the typed-method dialect is handled by matchTypedMethod. -/
def catalog : List Str :=
  [sToL "function ", sToL "export function ", sToL "class ",
   sToL "export class ", sToL "interface ", sToL "export interface ",
   sToL "type ", sToL "export type ", sToL "const ",
   sToL "export const ", sToL "let ", sToL "def "]

/-- Modelled from the spec: the typed-method declaration pattern — an
indented identifier directly followed by an argument list and a return
type annotation. -/
def matchTypedMethod (l : Str) : List Str :=
  let t := l.dropWhile isWS
  let id := takeIdent t
  if id = [] then []
  else if leadsWith [ '(' ] (List.drop id.length t) &&
          containsSeg (sToL "): ") t then [id] else []

/-- Modelled from the spec: all capture-group values produced on one line
by the catalog patterns and the typed-method pattern, applied
independently. -/
def lineCaptures (l : Str) : List Str :=
  collectAll (fun p => capturesAt p l) catalog ++ matchTypedMethod l

/-- Modelled from the spec: the Symbol Extractor — applies every catalog
pattern to every line of the proposed content, collects all captured
names and deduplicates case-sensitively. -/
def extractSymbols (content : List Str) : List Str :=
  (collectAll lineCaptures content).dedup

theorem capturesAt_head {p S : Str} {c : Char} (r : Str)
    (hp : p ≠ []) (hS : S ≠ []) (hid : ∀ x ∈ S, isIdentChar x = true)
    (hc : isIdentChar c = false) :
    S ∈ capturesAt p (p ++ S ++ c :: r) := by
  cases p with
  | nil => exact absurd rfl hp
  | cons a as =>
      have hlead : leadsWith (a :: as) ((a :: as) ++ S ++ c :: r) = true := by
        have := leadsWith_append (a :: as) (S ++ c :: r)
        simpa using this
      have hdrop :
          List.drop (a :: as).length ((a :: as) ++ S ++ c :: r) = S ++ c :: r := by
        simp
      have htake : takeIdent (S ++ c :: r) = S := takeIdent_append r hid hc
      simp only [List.append_assoc, List.cons_append] at *
      simp only [capturesAt, hlead, if_true, hdrop, htake, hS, if_neg hS]
      simp

/-- The declaration dialects recognized by the Pattern Catalog. -/
inductive Dialect where
  | functionDecl | exportFunction | classDecl | exportClass
  | interfaceDecl | typeAlias | constBinding | exportConst
  | letBinding | pythonDef | typedMethod
deriving DecidableEq, Repr

/-- A canonical source line declaring symbol S in the given dialect. -/
def declLine (d : Dialect) (S : Str) : Str :=
  match d with
  | Dialect.functionDecl => sToL "function " ++ S ++ sToL "(x) \x7b"
  | Dialect.exportFunction => sToL "export function " ++ S ++ sToL "() \x7b"
  | Dialect.classDecl => sToL "class " ++ S ++ sToL " \x7b"
  | Dialect.exportClass => sToL "export class " ++ S ++ sToL " \x7b"
  | Dialect.interfaceDecl => sToL "interface " ++ S ++ sToL " \x7b"
  | Dialect.typeAlias => sToL "type " ++ S ++ sToL " = number"
  | Dialect.constBinding => sToL "const " ++ S ++ sToL " = (x) => x"
  | Dialect.exportConst => sToL "export const " ++ S ++ sToL " = 1"
  | Dialect.letBinding => sToL "let " ++ S ++ sToL " = 1"
  | Dialect.pythonDef => sToL "def " ++ S ++ sToL "(x):"
  | Dialect.typedMethod => sToL "  " ++ S ++ sToL "(x: number): string \x7b"

/-- A file of the project tree: its path and its content lines. -/
structure FileEntry where
  path : Str
  lines : List Str
deriving DecidableEq

/-- Last path segment of a path. -/
def baseName (p : Str) : Str := (p.reverse.takeWhile (fun c => c ≠ '/')).reverse

/-- The extension of a base name (text after the last dot), empty when
there is no dot. -/
def extOf (b : Str) : Str :=
  let r := b.reverse.takeWhile (fun c => c ≠ '.')
  if r.length = b.length then [] else r.reverse

/-- The stem of a base name (text before the last dot); the whole name
when there is no dot. -/
def stemOf (b : Str) : Str :=
  let r := b.reverse.takeWhile (fun c => c ≠ '.')
  if r.length = b.length then b else (b.reverse.drop (r.length + 1)).reverse

/-- Modelled from the spec: findByGlob of the Tree Search Adapter — the
files of the tree whose base name matches the glob star-pattern-star,
that is, contains the given fragment. -/
def findByGlob (tree : List FileEntry) (pat : Str) : List Str :=
  (tree.filter (fun f => containsSeg pat (baseName f.path))).map (fun f => f.path)

/-- Modelled from the spec: the definition-like content patterns issued by
the Symbol Definition Finder for one symbol name (function, class,
const/let binding, Python def, interface, type alias). -/
def defnPatterns (s : Str) : List Str :=
  [sToL "function " ++ s, sToL "class " ++ s, sToL "const " ++ s,
   sToL "let " ++ s, sToL "def " ++ s, sToL "interface " ++ s,
   sToL "type " ++ s]

/-- Whether the pattern occurs at the start of the line fragment with the
occurrence anchored: the following character, if any, is not an
identifier character. -/
def leadsAnchored : Str → Str → Bool
  | [], [] => true
  | [], c :: _ => !(isIdentChar c)
  | _ :: _, [] => false
  | p :: ps, c :: cs => p = c && leadsAnchored ps cs

/-- Whether the pattern occurs anywhere in the line, anchored on the right. -/
def containsAnchored (pat : Str) : Str → Bool
  | [] => leadsAnchored pat []
  | c :: cs => leadsAnchored pat (c :: cs) || containsAnchored pat cs

/-- Modelled from the spec: findByContent of the Tree Search Adapter —
files of the tree one of whose lines contains an anchored occurrence of
one of the definition patterns for the symbol. -/
def findByContent (tree : List FileEntry) (s : Str) : List Str :=
  (tree.filter
    (fun f => f.lines.any
      (fun l => (defnPatterns s).any (fun p => containsAnchored p l)))).map
    (fun f => f.path)

/-- Modelled from the spec: the File Similarity Finder — files whose base
name contains the extension-stripped stem of the target base name. -/
def fileSimilarityFinder (tree : List FileEntry) (target : Str) : List Str :=
  findByGlob tree (stemOf (baseName target))

/-- Modelled from the spec: the Symbol Definition Finder — one
findByContent call per extracted symbol; each file found for a symbol
yields one SymbolMatch pair. -/
def symbolDefFinder (tree : List FileEntry) (syms : List Str) : List (Str × Str) :=
  collectAll (fun s => (findByContent tree s).map (fun p => (s, p))) syms

/-- Number of external content-search calls issued by the Symbol
Definition Finder: one per candidate symbol. -/
def symbolSearchCallCount (syms : List Str) : Nat := syms.length

/-- Modelled from the spec: the recognized configuration-file extensions. -/
def configExts : List Str :=
  [sToL "json", sToL "yaml", sToL "yml", sToL "toml", sToL "ini", sToL "cfg"]

/-- Modelled from the spec: whether a target path looks like a
configuration file (recognized extension, or a name containing env or
config, or ending in rc). -/
def isConfigLike (target : Str) : Bool :=
  let b := baseName target
  configExts.contains (extOf b) || containsSeg (sToL "env") b ||
    containsSeg (sToL "config") b || endsSeg (sToL "rc") b

/-- Modelled from the spec: the base name with a recognized configuration
extension stripped. -/
def normalizedBase (target : Str) : Str :=
  let b := baseName target
  if configExts.contains (extOf b) then stemOf b else b

/-- Modelled from the spec: the Config Similarity Finder — searches by the
normalized base name, excludes the target path itself, caps the result at
the first 5 matches. -/
def configFinder (tree : List FileEntry) (target : Str) : List (Str × Str) :=
  if isConfigLike target then
    let nb := normalizedBase target
    (((findByGlob tree nb).filter (fun p => decide (p ≠ target))).take 5).map
      (fun p => (nb, p))
  else []

/-- The advisory report assembled from the three finders. -/
structure AdvisoryReport where
  similarFiles : List Str
  symbolMatches : List (Str × Str)
  configMatches : List (Str × Str)
deriving DecidableEq

/-- Deduplicate symbol matches by symbol name, first file kept. -/
def dedupByNameGo (seen : List Str) : List (Str × Str) → List (Str × Str)
  | [] => []
  | m :: ms =>
      if seen.contains m.1 then dedupByNameGo seen ms
      else m :: dedupByNameGo (m.1 :: seen) ms

/-- Deduplicate symbol matches by symbol name, first file kept. -/
def dedupByName (ms : List (Str × Str)) : List (Str × Str) := dedupByNameGo [] ms

/-- Decimal rendering of a number. -/
def natToStr (n : Nat) : Str := (Nat.repr n).data

/-- One bullet line of the rendered advisory. -/
def renderLine (p : Str) : Str := sToL "  - " ++ p ++ [ '\n' ]

/-- Modelled from the spec: the similar-files section — first 3 files,
then a count of the remainder. -/
def filesSection (files : List Str) : Str :=
  if files.isEmpty then []
  else
    sToL "Similar files:\n" ++ collectAll renderLine (files.take 3) ++
      (if decide (3 < files.length) then
        sToL "  ... and " ++ natToStr (files.length - 3) ++ sToL " more\n"
       else [])

/-- One symbol-match line of the rendered advisory. -/
def symbolLine (m : Str × Str) : Str :=
  sToL "  - " ++ m.1 ++ sToL " in " ++ m.2 ++ [ '\n' ]

/-- Modelled from the spec: the symbol-matches section — first 5 distinct
names with the first file each. -/
def symbolsSection (ms : List (Str × Str)) : Str :=
  if ms.isEmpty then []
  else sToL "Symbol matches:\n" ++ collectAll symbolLine ((dedupByName ms).take 5)

/-- Modelled from the spec: the config-matches section — first 3 matches. -/
def configsSection (cs : List (Str × Str)) : Str :=
  if cs.isEmpty then []
  else sToL "Config matches:\n" ++ collectAll (fun m => renderLine m.2) (cs.take 3)

/-- Modelled from the spec: the Advisory Composer — empty text when all
three inputs are empty, otherwise a structured warning with the three
truncated sections. -/
def renderedText (r : AdvisoryReport) : Str :=
  if r.similarFiles.isEmpty && r.symbolMatches.isEmpty && r.configMatches.isEmpty
  then []
  else
    sToL "Duplicate check warning:\n" ++ filesSection r.similarFiles ++
      symbolsSection r.symbolMatches ++ configsSection r.configMatches

/-- Modelled from the spec: one hook invocation payload after parsing. -/
structure Invocation where
  toolName : Str
  targetPath : Str
  proposedContent : List Str
deriving DecidableEq

/-- Modelled from the spec: the world visible to the hook — the project
tree and a store of persisted reports. -/
structure World where
  tree : List FileEntry
  store : List AdvisoryReport
deriving DecidableEq

/-- Modelled from the spec: outcome of one hook invocation. -/
structure HookOutcome where
  world : World
  output : Option Str
  exitCode : Nat
  searchCalls : Nat
deriving DecidableEq

/-- Modelled from the spec: the tool names that proceed past the gate. -/
def allowedTool (t : Str) : Bool :=
  decide (t = sToL "Write") || decide (t = sToL "Edit") ||
    decide (t = sToL "MultiEdit")

/-- Modelled from the spec: the test/temp/build-artifact/doc skip
patterns applied to the target path. -/
def skipPath (p : Str) : Bool :=
  containsSeg (sToL "/test/") p || containsSeg (sToL "/tmp/") p ||
    containsSeg (sToL "/node_modules/") p || containsSeg (sToL "__tests__") p ||
    containsSeg (sToL ".test.") p || endsSeg (sToL ".md") p ||
    endsSeg (sToL ".txt") p || endsSeg (sToL ".log") p

/-- Modelled from the spec: gating before the core runs — only allowed
tools proceed, skip-pattern paths are filtered out. -/
def gate (inv : Invocation) : Bool :=
  allowedTool inv.toolName && !(skipPath inv.targetPath)

/-- Modelled from the spec: run the three finders over the tree and
assemble the advisory report. -/
def engineReport (tree : List FileEntry) (inv : Invocation) : AdvisoryReport :=
  let syms := extractSymbols inv.proposedContent
  { similarFiles := fileSimilarityFinder tree inv.targetPath
  , symbolMatches := symbolDefFinder tree syms
  , configMatches := configFinder tree inv.targetPath }

/-- Number of external search calls issued by one core run: one glob call
for the File Similarity Finder, one content call per extracted symbol,
and one glob call when the target is configuration-like. -/
def engineSearchCalls (inv : Invocation) : Nat :=
  1 + symbolSearchCallCount (extractSymbols inv.proposedContent) +
    (if isConfigLike inv.targetPath then 1 else 0)

/-- Modelled from the spec: output emission — only a non-empty rendered
text is emitted. -/
def emitted (r : AdvisoryReport) : Option Str :=
  if (renderedText r).isEmpty then none else some (renderedText r)

/-- Modelled from the spec: one full hook invocation — gate, run the core
read-only over the tree, emit the advisory; exit code is always 0. -/
def runHook (w : World) (inv : Invocation) : HookOutcome :=
  if gate inv then
    { world := w
    , output := emitted (engineReport w.tree inv)
    , exitCode := 0
    , searchCalls := engineSearchCalls inv }
  else
    { world := w, output := none, exitCode := 0, searchCalls := 0 }

/-- Modelled from the spec: the fixed bound, in time-units, that the Tree
Search Adapter puts on every backend call. -/
def adapterTimeoutUnits : Nat := 10

/-- Modelled from the spec: one backend search call — how long it ran and
its result, where none stands for a missing or erroring backend. -/
structure BackendCall where
  duration : Nat
  outcome : Option (List Str)
deriving DecidableEq

/-- Modelled from the spec: the Tree Search Adapter around one backend
call — enforce the timeout, degrade any failure to an empty sequence. -/
def adapterRun (b : BackendCall) : List Str :=
  if adapterTimeoutUnits < b.duration then []
  else
    match b.outcome with
    | none => []
    | some ps => ps

/-- The three finder result sets, each produced from its own backend call. -/
structure FinderResults where
  fileResults : List Str
  symbolResults : List Str
  configResults : List Str
deriving DecidableEq

/-- Modelled from the spec: the three Finders run independently, each
through the Tree Search Adapter over its own backend call. -/
def runFinders (bFile bSym bCfg : BackendCall) : FinderResults :=
  { fileResults := adapterRun bFile
  , symbolResults := adapterRun bSym
  , configResults := adapterRun bCfg }

/-- Result of a completed subprocess run, as used by test_hook of
multi-repo-hooks-test.py. -/
structure ProcResult where
  returncode : Int
  stdout : String
  stderr : String
deriving DecidableEq

/-- Outcome of attempting to launch and run the hook subprocess: either a
completed run or a raised exception. -/
inductive RunOutcome where
  | ok (r : ProcResult)
  | exn (msg : String)
deriving DecidableEq

/-- Embedding of test_hook (multi-repo-hooks-test.py, lines 11 to 36):
the whole body runs inside a try block; a completed run returns whether
the exit code is 0, and any exception is caught and yields False. -/
def test_hook (run : RunOutcome) : Bool :=
  match run with
  | RunOutcome.ok r => decide (r.returncode = 0)
  | RunOutcome.exn _ => false

/-- The two webhook tests that generate_report
(scripts/test-n8n-webhook.py) invokes. -/
inductive TestCall where
  | basicTest
  | apolloTest
deriving DecidableEq, BEq

/-- Embedding of the PASS/FAIL status field of the report. -/
def statusLine (b : Bool) : String := if b then "✅ PASS" else "❌ FAIL"

/-- Embedding of the details field of the basic webhook test. -/
def basicDetails (b : Bool) : String :=
  if b then "Webhook responding with data" else "Webhook returning empty responses"

/-- Embedding of the details field of the Apollo integration test. -/
def apolloDetails (b : Bool) : String :=
  if b then "Apollo integration working" else "Apollo integration issues detected"

/-- Embedding of the overall-assessment line of the report
(scripts/test-n8n-webhook.py, line 156). -/
def overallAssessment (b a : Bool) : String :=
  if b && a then "✅ N8N workflow is functioning properly"
  else "❌ N8N workflow requires attention"

/-- Embedding of the recommendations field of the report. -/
def recommendationText (b a : Bool) : String :=
  if b && a then "- System is working correctly"
  else "- Import JetVision-Agent-Workflow-FIXED.json\n   - Deactivate conflicting workflows\n   - Verify environment variables\n   - Check workflow activation status"

/-- Embedding of the next-steps field of the report. -/
def nextStepsText (b a : Bool) : String :=
  if b && a then "- Continue monitoring system health"
  else "- Access N8N admin interface: https://n8n.vividwalls.blog\n   - Import corrected workflow from ../n8n-workflow/JetVision-Agent-Workflow-FIXED.json\n   - Activate workflow\n   - Re-run diagnostics"

/-- The part of report_content before the overall-assessment line. -/
def reportPre (now : String) (b a : Bool) : String :=
  "N8N Webhook Diagnostic Report\nGenerated: " ++ now ++
    "\n========================================\n\n1. Basic Webhook Test:\n   Status: " ++
    statusLine b ++ "\n   Details: " ++ basicDetails b ++
    "\n\n2. Apollo Integration Test:\n   Status: " ++ statusLine a ++
    "\n   Details: " ++ apolloDetails a ++ "\n\n3. Overall Assessment:\n   "

/-- The part of report_content after the overall-assessment line. -/
def reportPost (b a : Bool) : String :=
  "\n\n4. Recommendations:\n   " ++ recommendationText b a ++
    "\n\n5. Next Steps:\n   " ++ nextStepsText b a ++ "\n"

/-- Embedding of report_content (scripts/test-n8n-webhook.py, lines 143
to 169), parameterized by the generation timestamp and the two test
results. -/
def report_content (now : String) (b a : Bool) : String :=
  reportPre now b a ++ overallAssessment b a ++ reportPost b a

/-- Embedding of generate_report (scripts/test-n8n-webhook.py, lines 133
to 178): it calls test_webhook_basic once, then test_apollo_integration
once (lines 140 and 141), and renders the report from the two results.
The returned list is the trace of test invocations, in order. -/
def generate_report (b a : Bool) (now : String) : List TestCall × String :=
  ([TestCall.basicTest, TestCall.apolloTest], report_content now b a)

theorem ident_not_ws {c : Char} (h : isIdentChar c = true) : isWS c = false := by
  by_cases h1 : c = ' '
  · rw [h1] at h; exact absurd h (by decide)
  · by_cases h2 : c = '\t'
    · rw [h2] at h; exact absurd h (by decide)
    · simp [isWS, h1, h2]

/-- Whether a pattern starts with a non-whitespace character. -/
def headNonWS : Str → Bool
  | [] => false
  | c :: _ => !(isWS c)

theorem catalog_heads : ∀ p ∈ catalog, headNonWS p = true := by decide

theorem capturesAt_eq_nil_ws {p : Str} (hp : headNonWS p = true) {l : Str}
    (hl : ∀ c ∈ l, isWS c = true) : capturesAt p l = [] := by
  induction l with
  | nil => rfl
  | cons c cs ih =>
      have hc : isWS c = true := hl c (by simp)
      have hlead : leadsWith p (c :: cs) = false := by
        cases p with
        | nil => exact absurd hp (by simp [headNonWS])
        | cons p0 ps =>
            have h0 : isWS p0 = false := by simpa [headNonWS] using hp
            have hne : p0 ≠ c := by
              intro he; rw [he, hc] at h0; cases h0
            simp [leadsWith, hne]
      simp only [capturesAt, hlead, Bool.false_eq_true, if_false, List.nil_append]
      exact ih (fun x hx => hl x (by simp [hx]))

theorem dropWhile_ws_nil {l : Str} (hl : ∀ c ∈ l, isWS c = true) :
    l.dropWhile isWS = [] := by
  induction l with
  | nil => rfl
  | cons c cs ih =>
      have hc : isWS c = true := hl c (by simp)
      simp only [List.dropWhile, hc]
      exact ih (fun x hx => hl x (by simp [hx]))

theorem matchTypedMethod_ws {l : Str} (hl : ∀ c ∈ l, isWS c = true) :
    matchTypedMethod l = [] := by
  simp only [matchTypedMethod, dropWhile_ws_nil hl]
  rfl

theorem lineCaptures_ws {l : Str} (hl : ∀ c ∈ l, isWS c = true) :
    lineCaptures l = [] := by
  unfold lineCaptures
  rw [matchTypedMethod_ws hl, List.append_nil]
  exact collectAll_eq_nil
    (fun p hp => capturesAt_eq_nil_ws (catalog_heads p hp) hl)

theorem mem_lineCaptures_of_catalog {p : Str} (hp : p ∈ catalog) (hpne : p ≠ [])
    {S : Str} {c : Char} (r : Str) (hS : S ≠ [])
    (hid : ∀ x ∈ S, isIdentChar x = true) (hc : isIdentChar c = false) :
    S ∈ lineCaptures (p ++ S ++ c :: r) := by
  unfold lineCaptures
  exact List.mem_append.mpr
    (Or.inl (mem_collectAll p hp (capturesAt_head r hpne hS hid hc)))

theorem mem_matchTypedMethod {S : Str} (hS : S ≠ [])
    (hid : ∀ x ∈ S, isIdentChar x = true) :
    S ∈ matchTypedMethod (sToL "  " ++ S ++ sToL "(x: number): string \x7b") := by
  have hrest : sToL "(x: number): string \x7b" =
      '(' :: sToL "x: number): string \x7b" := rfl
  obtain ⟨s0, S1, rfl⟩ : ∃ s0 S1, S = s0 :: S1 := by
    cases S with
    | nil => exact absurd rfl hS
    | cons a l => exact ⟨a, l, rfl⟩
  have h0 : isWS s0 = false := ident_not_ws (hid s0 (by simp))
  have hsp : isWS ' ' = true := by decide
  have hdw : List.dropWhile isWS
      (sToL "  " ++ (s0 :: S1) ++ sToL "(x: number): string \x7b") =
      (s0 :: S1) ++ sToL "(x: number): string \x7b" := by
    simp only [sToL]
    simp only [List.cons_append, List.nil_append, List.dropWhile_cons,
      hsp, h0, if_true]
    simp
  have htake : takeIdent ((s0 :: S1) ++ sToL "(x: number): string \x7b") =
      s0 :: S1 := by
    rw [hrest]
    exact takeIdent_append _ hid (by decide)
  have hdrop : List.drop (s0 :: S1).length
      ((s0 :: S1) ++ sToL "(x: number): string \x7b") =
      sToL "(x: number): string \x7b" := List.drop_left _ _
  have hcont : containsSeg (sToL "): ")
      ((s0 :: S1) ++ sToL "(x: number): string \x7b") = true :=
    containsSeg_append_right (s0 :: S1) (by decide)
  have hld : leadsWith [ '(' ] (sToL "(x: number): string \x7b") = true := by
    decide
  unfold matchTypedMethod
  rw [hdw]
  simp only [htake, hdrop, hcont, hld]
  simp

theorem mem_lineCaptures_declLine (d : Dialect) {S : Str} (hS : S ≠ [])
    (hid : ∀ x ∈ S, isIdentChar x = true) :
    S ∈ lineCaptures (declLine d S) := by
  cases d with
  | functionDecl =>
      have he : declLine Dialect.functionDecl S =
          sToL "function " ++ S ++ '(' :: sToL "x) \x7b" := rfl
      rw [he]
      exact mem_lineCaptures_of_catalog (by decide) (by decide) _ hS hid (by decide)
  | exportFunction =>
      have he : declLine Dialect.exportFunction S =
          sToL "export function " ++ S ++ '(' :: sToL ") \x7b" := rfl
      rw [he]
      exact mem_lineCaptures_of_catalog (by decide) (by decide) _ hS hid (by decide)
  | classDecl =>
      have he : declLine Dialect.classDecl S =
          sToL "class " ++ S ++ ' ' :: sToL "\x7b" := rfl
      rw [he]
      exact mem_lineCaptures_of_catalog (by decide) (by decide) _ hS hid (by decide)
  | exportClass =>
      have he : declLine Dialect.exportClass S =
          sToL "export class " ++ S ++ ' ' :: sToL "\x7b" := rfl
      rw [he]
      exact mem_lineCaptures_of_catalog (by decide) (by decide) _ hS hid (by decide)
  | interfaceDecl =>
      have he : declLine Dialect.interfaceDecl S =
          sToL "interface " ++ S ++ ' ' :: sToL "\x7b" := rfl
      rw [he]
      exact mem_lineCaptures_of_catalog (by decide) (by decide) _ hS hid (by decide)
  | typeAlias =>
      have he : declLine Dialect.typeAlias S =
          sToL "type " ++ S ++ ' ' :: sToL "= number" := rfl
      rw [he]
      exact mem_lineCaptures_of_catalog (by decide) (by decide) _ hS hid (by decide)
  | constBinding =>
      have he : declLine Dialect.constBinding S =
          sToL "const " ++ S ++ ' ' :: sToL "= (x) => x" := rfl
      rw [he]
      exact mem_lineCaptures_of_catalog (by decide) (by decide) _ hS hid (by decide)
  | exportConst =>
      have he : declLine Dialect.exportConst S =
          sToL "export const " ++ S ++ ' ' :: sToL "= 1" := rfl
      rw [he]
      exact mem_lineCaptures_of_catalog (by decide) (by decide) _ hS hid (by decide)
  | letBinding =>
      have he : declLine Dialect.letBinding S =
          sToL "let " ++ S ++ ' ' :: sToL "= 1" := rfl
      rw [he]
      exact mem_lineCaptures_of_catalog (by decide) (by decide) _ hS hid (by decide)
  | pythonDef =>
      have he : declLine Dialect.pythonDef S =
          sToL "def " ++ S ++ '(' :: sToL "x):" := rfl
      rw [he]
      exact mem_lineCaptures_of_catalog (by decide) (by decide) _ hS hid (by decide)
  | typedMethod =>
      have he : declLine Dialect.typedMethod S =
          sToL "  " ++ S ++ sToL "(x: number): string \x7b" := rfl
      rw [he]
      unfold lineCaptures
      exact List.mem_append.mpr (Or.inr (mem_matchTypedMethod hS hid))

/-- Claim C1: every Tree Search Adapter call is bounded by the fixed
timeout of 10 time-units; on timeout or backend failure it returns the
empty sequence instead of an error, and the results of the other Finders
are unaffected by such a failure. -/
theorem adapter_timeout_soft_failure (b : BackendCall)
    (h : adapterTimeoutUnits < b.duration ∨ b.outcome = none) :
    adapterTimeoutUnits = 10 ∧ adapterRun b = [] ∧
    (∀ bF bS bC bS2 : BackendCall,
      (runFinders bF bS bC).fileResults = (runFinders bF bS2 bC).fileResults ∧
      (runFinders bF bS bC).configResults = (runFinders bF bS2 bC).configResults) := by
  refine ⟨rfl, ?_, ?_⟩
  · rcases h with h | h
    · simp [adapterRun, h]
    · simp [adapterRun, h]
  · intro bF bS bC bS2
    exact ⟨rfl, rfl⟩

/-- Witness for C1 at a call that takes 11 time-units. -/
theorem adapter_timeout_soft_failure_witness :
    adapterRun ⟨11, some [sToL "a.ts"]⟩ = [] :=
  (adapter_timeout_soft_failure ⟨11, some [sToL "a.ts"]⟩ (Or.inl (by decide))).2.1

/-- Claim C2: when all three Finder results are empty, the Advisory
Composer renders the empty string, no output is emitted, and the exit
code is 0; the exit code is 0 on every invocation that reaches the core. -/
theorem composer_empty_no_output (r : AdvisoryReport)
    (h1 : r.similarFiles = []) (h2 : r.symbolMatches = [])
    (h3 : r.configMatches = []) :
    renderedText r = [] ∧ emitted r = none ∧
    (∀ (w : World) (inv : Invocation),
      engineReport w.tree inv = r → (runHook w inv).output = none) ∧
    (∀ (w : World) (inv : Invocation), (runHook w inv).exitCode = 0) := by
  have hrt : renderedText r = [] := by simp [renderedText, h1, h2, h3]
  refine ⟨hrt, ?_, ?_, ?_⟩
  · simp [emitted, hrt]
  · intro w inv he
    unfold runHook
    split
    · simp [he, emitted, hrt]
    · rfl
  · intro w inv
    unfold runHook
    split <;> rfl

/-- Witness for C2 at the all-empty report. -/
theorem composer_empty_no_output_witness :
    renderedText ⟨[], [], []⟩ = [] :=
  (composer_empty_no_output ⟨[], [], []⟩ rfl rfl rfl).1

/-- Claim C3: the engine never mutates the project tree and never
persists the advisory report: the world after an invocation is the world
before it, tree and store alike. -/
theorem engine_readonly_never_persists (w : World) (inv : Invocation) :
    (runHook w inv).world = w ∧ (runHook w inv).world.tree = w.tree ∧
    (runHook w inv).world.store = w.store := by
  unfold runHook
  split <;> exact ⟨rfl, rfl, rfl⟩

/-- Claim C4: an invocation whose tool is not Write, Edit or MultiEdit,
or whose target path matches a skip pattern, never runs the core: no
search call is made, no output is emitted, the exit code is 0, the world
is untouched, and repeating the call gives the identical outcome. -/
theorem gating_skips_core (w : World) (inv : Invocation)
    (h : allowedTool inv.toolName = false ∨ skipPath inv.targetPath = true) :
    gate inv = false ∧
    runHook w inv =
      { world := w, output := none, exitCode := 0, searchCalls := 0 } ∧
    runHook (runHook w inv).world inv = runHook w inv := by
  have hg : gate inv = false := by
    rcases h with h | h <;> simp [gate, h]
  refine ⟨hg, ?_, ?_⟩
  · simp [runHook, hg]
  · simp [runHook, hg]

/-- Witness for C4 at a Read invocation on a test-directory path. -/
theorem gating_skips_core_witness :
    runHook ⟨[], []⟩ ⟨sToL "Read", sToL "src/__tests__/x.test.ts", []⟩ =
      { world := ⟨[], []⟩, output := none, exitCode := 0, searchCalls := 0 } :=
  (gating_skips_core ⟨[], []⟩ ⟨sToL "Read", sToL "src/__tests__/x.test.ts", []⟩
    (Or.inl (by decide))).2.1

/-- Claim C5: for every proposed content containing a declaration of a
symbol S in any dialect recognized by the Pattern Catalog, the Symbol
Extractor output contains S; the output is deduplicated. -/
theorem extractor_finds_declared_symbol (d : Dialect) (S : Str)
    (content : List Str) (hS : S ≠ [])
    (hid : ∀ x ∈ S, isIdentChar x = true)
    (hmem : declLine d S ∈ content) :
    S ∈ extractSymbols content ∧ (extractSymbols content).Nodup := by
  constructor
  · exact List.mem_dedup.mpr
      (mem_collectAll (declLine d S) hmem (mem_lineCaptures_declLine d hS hid))
  · exact List.nodup_dedup _

/-- Witness for C5: a function declaration of foo is extracted. -/
theorem extractor_finds_declared_symbol_witness :
    sToL "foo" ∈ extractSymbols [declLine Dialect.functionDecl (sToL "foo")] :=
  (extractor_finds_declared_symbol Dialect.functionDecl (sToL "foo")
    [declLine Dialect.functionDecl (sToL "foo")] (by decide) (by decide)
    (by simp)).1

/-- Claim C6: empty or whitespace-only proposed content yields an empty
symbol set, so the Symbol Definition Finder issues no search call and
returns nothing. -/
theorem extractor_empty_on_whitespace (content : List Str)
    (tree : List FileEntry)
    (h : ∀ l ∈ content, ∀ c ∈ l, isWS c = true) :
    extractSymbols content = [] ∧
    symbolDefFinder tree (extractSymbols content) = [] ∧
    symbolSearchCallCount (extractSymbols content) = 0 := by
  have hnil : extractSymbols content = [] := by
    unfold extractSymbols
    rw [collectAll_eq_nil (fun l hl => lineCaptures_ws (h l hl))]
    rfl
  exact ⟨hnil, by rw [hnil]; rfl, by rw [hnil]; rfl⟩

/-- Witness for C6 at a single whitespace-only line. -/
theorem extractor_empty_on_whitespace_witness :
    extractSymbols [sToL "   "] = [] :=
  (extractor_empty_on_whitespace [sToL "   "] [] (by decide)).1

/-- Claim C7: the Config Similarity Finder searches by the normalized
base name (recognized extension stripped), never includes the target
path itself, and returns at most 5 matches; proposing
config/database.json when config/database.yaml exists yields a
ConfigMatch for the yaml file. -/
theorem config_finder_excludes_target (tree : List FileEntry) (target : Str) :
    (∀ m ∈ configFinder tree target, m.2 ≠ target) ∧
    (configFinder tree target).length ≤ 5 ∧
    normalizedBase (sToL "config/database.json") = sToL "database" ∧
    configFinder [⟨sToL "config/database.yaml", []⟩]
        (sToL "config/database.json") =
      [(sToL "database", sToL "config/database.yaml")] := by
  refine ⟨?_, ?_, by decide, by decide⟩
  · intro m hm
    cases hcfg : isConfigLike target with
    | false => rw [configFinder, hcfg] at hm; simp at hm
    | true =>
        rw [configFinder, hcfg] at hm
        simp only [if_true] at hm
        rcases List.mem_map.mp hm with ⟨p, hp, rfl⟩
        have hp2 := List.mem_filter.mp (List.mem_of_mem_take hp)
        exact of_decide_eq_true hp2.2
  · cases hcfg : isConfigLike target with
    | false => rw [configFinder, hcfg]; simp
    | true =>
        rw [configFinder, hcfg]
        simp only [if_true, List.length_map, List.length_take]
        exact le_trans (Nat.min_le_left _ _) (le_refl 5)

/-- Witness for C7: the yaml match returned for config/database.json is
not the target path itself. -/
theorem config_finder_excludes_target_witness :
    sToL "config/database.yaml" ≠ sToL "config/database.json" := by
  have h := (config_finder_excludes_target
    [⟨sToL "config/database.yaml", []⟩] (sToL "config/database.json")).1
  exact h (sToL "database", sToL "config/database.yaml") (by decide)

/-- Claim C8: the Advisory Composer truncates at fixed limits — first 3
similar files with a count of the remainder, at most 5 distinct symbol
names, at most 3 config matches; with 10 file matches, exactly 3 are
shown together with a remainder count of 7. -/
theorem composer_truncation (files : List Str) (syms cfgs : List (Str × Str))
    (h : files.length = 10) :
    (files.take 3).length = 3 ∧ files.length - 3 = 7 ∧
    containsSeg (sToL "and 7 more") (renderedText ⟨files, [], []⟩) = true ∧
    ((dedupByName syms).take 5).length ≤ 5 ∧ (cfgs.take 3).length ≤ 3 := by
  have h7 : files.length - 3 = 7 := by omega
  have hne : files ≠ [] := by intro he; rw [he] at h; simp at h
  have hEmp : files.isEmpty = false := by
    cases hb : files.isEmpty
    · rfl
    · exact absurd (List.isEmpty_iff.mp hb) hne
  have h3lt : decide (3 < files.length) = true := by rw [h]; rfl
  have hT : containsSeg (sToL "and 7 more")
      (sToL "  ... and " ++ (natToStr (files.length - 3) ++ sToL " more\n")) =
      true := by
    rw [h7]; decide
  refine ⟨by simp [List.length_take, h], h7, ?_, ?_, ?_⟩
  · simp only [renderedText, hEmp, Bool.false_and, Bool.false_eq_true,
      if_false]
    have hsym : symbolsSection [] = [] := rfl
    have hcfg : configsSection [] = [] := rfl
    rw [hsym, hcfg, List.append_nil, List.append_nil]
    apply containsSeg_append_right
    simp only [filesSection, hEmp, Bool.false_eq_true, if_false, h3lt,
      if_true, List.append_assoc]
    apply containsSeg_append_right
    apply containsSeg_append_right
    exact hT
  · simp [List.length_take]
  · simp [List.length_take]

/-- Witness for C8 at a concrete list of 10 file matches. -/
theorem composer_truncation_witness :
    containsSeg (sToL "and 7 more")
      (renderedText ⟨[sToL "f0", sToL "f1", sToL "f2", sToL "f3", sToL "f4",
        sToL "f5", sToL "f6", sToL "f7", sToL "f8", sToL "f9"], [], []⟩) =
      true :=
  (composer_truncation
    [sToL "f0", sToL "f1", sToL "f2", sToL "f3", sToL "f4",
     sToL "f5", sToL "f6", sToL "f7", sToL "f8", sToL "f9"] [] []
    (by decide)).2.2.1

/-- Claim C9: test_hook never lets an exception escape — an exception
while launching or running the hook subprocess yields False, and a
completed run yields True exactly when the exit code is 0. -/
theorem test_hook_catches_everything (m : String) (r : ProcResult) :
    test_hook (RunOutcome.exn m) = false ∧
    (test_hook (RunOutcome.ok r) = true ↔ r.returncode = 0) := by
  exact ⟨rfl, by simp [test_hook]⟩

/-- Claim C10: generate_report runs the basic webhook test and the Apollo
test exactly once each, the rendered report embeds the overall
assessment, and that assessment reads functioning-properly exactly when
both tests pass, otherwise requires-attention. -/
theorem generate_report_runs_once_and_assesses (b a : Bool) (now : String) :
    (generate_report b a now).1 = [TestCall.basicTest, TestCall.apolloTest] ∧
    List.count TestCall.basicTest (generate_report b a now).1 = 1 ∧
    List.count TestCall.apolloTest (generate_report b a now).1 = 1 ∧
    containsSeg (overallAssessment b a).data (report_content now b a).data =
      true ∧
    (overallAssessment b a = "✅ N8N workflow is functioning properly" ↔
      (b = true ∧ a = true)) ∧
    ((b = false ∨ a = false) →
      overallAssessment b a = "❌ N8N workflow requires attention") := by
  refine ⟨rfl, rfl, rfl, ?_, ?_, ?_⟩
  · simp only [report_content, String.data_append, List.append_assoc]
    apply containsSeg_append_right
    exact containsSeg_self_append _ _
  · cases b <;> cases a <;> decide
  · cases b <;> cases a <;> decide

/-- Witness for C10: with a failing basic test the assessment reads
requires-attention. -/
theorem generate_report_runs_once_and_assesses_witness :
    overallAssessment false true = "❌ N8N workflow requires attention" :=
  (generate_report_runs_once_and_assesses false true "2025-01-01").2.2.2.2.2
    (Or.inl rfl)
